import Mathlib

/-!
Verification development for the filename-parsing and library-matching engine
of a media-library manager. The definitions below are a shallow embedding of
the TypeScript source (`src/lib/filename-parser.ts` and the `LibraryMatcher`
class): JavaScript strings are modelled as `String`/`List Char`, the regular
expressions of the source are modelled by explicit scanning functions with the
same matching semantics, JS `Map`s by association lists, exceptions by
`Except`, and stateful methods by explicit state passing.

Conventions used throughout:
- JS `\w` is `[A-Za-z0-9_]`, so `\b` is a transition between a word char and a
  non-word char (string edges count as non-word).  Arabic letters are NOT word
  characters (the source regexes do not use the `u` flag).
- `toLowerCase`/`toUpperCase` are modelled on ASCII letters only; all
  characters the source compares case-insensitively are ASCII.
- Functions that recurse while consuming a variable number of characters take
  a fuel argument; every step consumes at least one character, so fuel equal
  to the length of the input never runs out.  Wrappers pass that fuel.
-/

/-! ## Character classes -/

/-- JS whitespace class `\s` (the code points matched by `/\s/`). -/
def isJsSpace (c : Char) : Bool :=
  c == ' ' || c == '\t' || c == '\n' || c == '\r' ||
  c == Char.ofNat 0x0b || c == Char.ofNat 0x0c || c == Char.ofNat 0xa0 ||
  c == Char.ofNat 0x1680 ||
  (Char.ofNat 0x2000 ≤ c && c ≤ Char.ofNat 0x200a) ||
  c == Char.ofNat 0x2028 || c == Char.ofNat 0x2029 || c == Char.ofNat 0x202f ||
  c == Char.ofNat 0x205f || c == Char.ofNat 0x3000 || c == Char.ofNat 0xfeff

/-- JS word-character class `\w` = `[A-Za-z0-9_]` (no `u` flag anywhere in the source). -/
def isWordChar (c : Char) : Bool :=
  c.isAlpha || c.isDigit || c == '_'

/-- Wordness of the character just before the current position (`none` = string edge). -/
def isWordCharOpt : Option Char → Bool
  | some c => isWordChar c
  | none => false

/-- A `\b` boundary between an optional previous character and a first matched
character: their wordness differs (string edges are non-word). -/
def boundaryBefore (prev : Option Char) (first : Char) : Bool :=
  isWordCharOpt prev != isWordChar first

/-- A `\b` boundary between the last matched character and an optional next character. -/
def boundaryAfter (last : Char) (next : Option Char) : Bool :=
  isWordChar last != isWordCharOpt next

/-- ASCII-only model of JS `toLowerCase` (all case-insensitive comparisons in
the source involve ASCII letters; other characters are unchanged). -/
def jsToLowerL (l : List Char) : List Char := l.map Char.toLower

/-- ASCII-only model of JS `toUpperCase`. -/
def jsToUpperL (l : List Char) : List Char := l.map Char.toUpper

def jsToLowerS (s : String) : String := String.mk (jsToLowerL s.data)

def jsToUpperS (l : List Char) : String := String.mk (jsToUpperL l)

/-! ## Substring search (JS `includes`, `startsWith`, plain regex containment) -/

/-- `needle` is a prefix of `hay` (case-sensitive). -/
def startsWithCS : List Char → List Char → Bool
  | _, [] => true
  | [], _ :: _ => false
  | c :: t, n :: ns => c == n && startsWithCS t ns

/-- `hay.includes(needle)` (case-sensitive substring search). -/
def containsCS : List Char → List Char → Bool
  | [], needle => needle.isEmpty
  | c :: t, needle => startsWithCS (c :: t) needle || containsCS t needle

/-- Case-insensitive prefix test. -/
def startsWithCI : List Char → List Char → Bool
  | _, [] => true
  | [], _ :: _ => false
  | c :: t, n :: ns => c.toLower == n.toLower && startsWithCI t ns

/-- Case-insensitive substring search (a `/.../i` regex with a plain literal body). -/
def containsCI : List Char → List Char → Bool
  | [], needle => needle.isEmpty
  | c :: t, needle => startsWithCI (c :: t) needle || containsCI t needle

/-- Strip a case-insensitive occurrence of `needle` from the front of `hay`,
returning the rest, or `none` when `needle` is not a CI prefix of `hay`. -/
def ciStrip : List Char → List Char → Option (List Char)
  | s, [] => some s
  | [], _ :: _ => none
  | c :: t, n :: ns => if c.toLower == n.toLower then ciStrip t ns else none

/-- The pattern `[Qq]\d` occurs somewhere: letter Q or q immediately followed
by an ASCII digit (the `/[Qq]\d+/` regexes of the source). -/
def containsQDigitL : List Char → Bool
  | [] => false
  | c :: rest =>
    ((c == 'Q' || c == 'q') &&
      (match rest with
       | d :: _ => d.isDigit
       | [] => false)) ||
    containsQDigitL rest

/-- Scanner for `/\bword\b/i`: a case-insensitive occurrence of `w` with `\b`
boundaries on both sides.  `wf`/`wl` are the first/last characters of `w`. -/
def containsWordCIAux (w : List Char) (wf wl : Char) (prev : Option Char) : List Char → Bool
  | [] => false
  | c :: rest =>
    (boundaryBefore prev wf &&
      (match ciStrip (c :: rest) w with
       | some after => boundaryAfter wl after.head?
       | none => false)) ||
    containsWordCIAux w wf wl (some c) rest

/-- `/\bw\b/i.test(s)` for a nonempty literal word `w`. -/
def containsWordCI (s w : List Char) : Bool :=
  match w with
  | [] => true
  | wf :: _ => containsWordCIAux w wf (w.getLastD wf) none s

/-- Scanner for `/\bw1\s*w2\b/i`: word `w1`, any amount of whitespace, word
`w2`, with `\b` boundaries at the very start and very end. -/
def boundedSeqAux (w1 w2 : List Char) (f1 l2 : Char) (prev : Option Char) : List Char → Bool
  | [] => false
  | c :: rest =>
    (boundaryBefore prev f1 &&
      (match ciStrip (c :: rest) w1 with
       | some after =>
         match ciStrip (after.dropWhile isJsSpace) w2 with
         | some after2 => boundaryAfter l2 after2.head?
         | none => false
       | none => false)) ||
    boundedSeqAux w1 w2 f1 l2 (some c) rest

/-- `/\bw1\s*w2\b/i.test(s)` for nonempty literal words `w1`, `w2`. -/
def boundedSeq (s w1 w2 : List Char) : Bool :=
  match w1, w2 with
  | f1 :: _, _ :: _ => boundedSeqAux w1 w2 f1 (w2.getLastD f1) none s
  | _, _ => false

/-- Scanner for `/\bkw\s*\d+\b/i` where `kw` starts with a letter: the keyword
at a word boundary, optional whitespace, at least one digit, then a boundary
after the digit run. -/
def kwWsDigitsBoundedAux (kw : List Char) (prev : Option Char) : List Char → Bool
  | [] => false
  | c :: rest =>
    ((!isWordCharOpt prev) &&
      (match ciStrip (c :: rest) kw with
       | some after =>
         let afterWs := after.dropWhile isJsSpace
         let digits := afterWs.takeWhile (fun d => d.isDigit)
         let afterDigits := afterWs.dropWhile (fun d => d.isDigit)
         !digits.isEmpty && !isWordCharOpt afterDigits.head?
       | none => false)) ||
    kwWsDigitsBoundedAux kw (some c) rest

def kwWsDigitsBounded (s kw : List Char) : Bool :=
  kwWsDigitsBoundedAux kw none s

/-- Scanner for `/kw\s*\d+/` with no boundaries (the Arabic question patterns). -/
def kwWsDigitsAnywhere (s kw : List Char) : Bool :=
  match s with
  | [] => false
  | c :: rest =>
    (match ciStrip (c :: rest) kw with
     | some after =>
       match (after.dropWhile isJsSpace).head? with
       | some d => d.isDigit
       | none => false
     | none => false) ||
    kwWsDigitsAnywhere rest kw

/-- Scanner for `/\b[a-z]+\s+quiz\b/i`: a word made of letters, at least one
whitespace character, then `quiz` with a trailing boundary (the source uses
this to exclude phrases like `"math quiz for practice"`). -/
def phraseWordQuizAux (prev : Option Char) : List Char → Bool
  | [] => false
  | c :: rest =>
    (c.isAlpha && !isWordCharOpt prev &&
      (let afterLetters := (c :: rest).dropWhile (fun ch => ch.isAlpha)
       match afterLetters.head? with
       | some w =>
         isJsSpace w &&
           (match ciStrip (afterLetters.dropWhile isJsSpace) ['q', 'u', 'i', 'z'] with
            | some after => !isWordCharOpt after.head?
            | none => false)
       | none => false)) ||
    phraseWordQuizAux (some c) rest

def phraseWordQuiz (s : List Char) : Bool := phraseWordQuizAux none s

/-- First match of `/\b(T[12])\b/i`, already uppercased as the source does. -/
def findWordT12Aux (prev : Option Char) : List Char → Option String
  | [] => none
  | c :: rest =>
    if (c == 'T' || c == 't') && !isWordCharOpt prev then
      match rest with
      | d :: rest2 =>
        if (d == '1' || d == '2') && !isWordCharOpt rest2.head? then
          some (if d == '1' then "T1" else "T2")
        else findWordT12Aux (some c) rest
      | [] => findWordT12Aux (some c) rest
    else findWordT12Aux (some c) rest

def findWordT12 (s : List Char) : Option String := findWordT12Aux none s

/-! ## JS string pipeline operations used by `parseFilename` -/

/-- The open/close curly brace characters, named to keep them out of literals. -/
def braceOpen : Char := Char.ofNat 123

def braceClose : Char := Char.ofNat 125

/-- `filename.split('.')[0]`: everything before the first dot (the whole string
when there is no dot; the empty string when the string starts with a dot). -/
def takeUntilDot (l : List Char) : List Char := l.takeWhile (fun c => c != '.')

/-- The global replace of regex `--+` by `-`: every run of two or more dashes
becomes a single dash (runs of one are untouched, so every dash run collapses
to one dash). -/
def collapseDashRunsF : Nat → List Char → List Char
  | 0, l => l
  | _ + 1, [] => []
  | fuel + 1, c :: rest =>
    if c == '-' then '-' :: collapseDashRunsF fuel (rest.dropWhile (fun d => d == '-'))
    else c :: collapseDashRunsF fuel rest

def collapseDashRuns (l : List Char) : List Char := collapseDashRunsF l.length l

/-- `replace(/_/g, '-')`. -/
def underscoresToDashes (l : List Char) : List Char :=
  l.map (fun c => if c == '_' then '-' else c)

/-- `replace(/\s*-\s*/g, '-')`, scanned left to right exactly as the regex
engine does: pending whitespace is dropped when a dash follows it, and the
whitespace directly after a matched dash is consumed greedily. -/
def normDashSpaceF : Nat → List Char → List Char → List Char
  | 0, pend, l => pend.reverse ++ l
  | _ + 1, pend, [] => pend.reverse
  | fuel + 1, pend, c :: rest =>
    if c == '-' then '-' :: normDashSpaceF fuel [] (rest.dropWhile isJsSpace)
    else if isJsSpace c then normDashSpaceF fuel (c :: pend) rest
    else pend.reverse ++ c :: normDashSpaceF fuel [] rest

def normDashSpace (l : List Char) : List Char := normDashSpaceF l.length [] l

/-- JS `trim()` over the `\s` class. -/
def jsTrimL (l : List Char) : List Char :=
  ((l.dropWhile isJsSpace).reverse.dropWhile isJsSpace).reverse

def jsTrimS (s : String) : String := String.mk (jsTrimL s.data)

/-- The capture of the first match of `/\{([^}]+)\}/`: from each opening brace,
a nonempty run of non-closing-brace characters terminated by a closing brace;
on failure the scan resumes after that opening brace. -/
def firstBraceCaptureF : Nat → List Char → Option (List Char)
  | 0, _ => none
  | _ + 1, [] => none
  | fuel + 1, c :: rest =>
    if c == braceOpen then
      let run := rest.takeWhile (fun d => d != braceClose)
      let after := rest.drop run.length
      if !run.isEmpty && after.head? == some braceClose then some run
      else firstBraceCaptureF fuel rest
    else firstBraceCaptureF fuel rest

def firstBraceCapture (l : List Char) : Option (List Char) := firstBraceCaptureF l.length l

/-- `replace(/\{[^}]+\}/, '')`: remove the first (and only the first) braced
group, using the same matching rule as `firstBraceCapture`. -/
def removeFirstBraceF : Nat → List Char → List Char
  | 0, l => l
  | _ + 1, [] => []
  | fuel + 1, c :: rest =>
    if c == braceOpen then
      let run := rest.takeWhile (fun d => d != braceClose)
      let after := rest.drop run.length
      if !run.isEmpty && after.head? == some braceClose then after.drop 1
      else c :: removeFirstBraceF fuel rest
    else c :: removeFirstBraceF fuel rest

def removeFirstBrace (l : List Char) : List Char := removeFirstBraceF l.length l

/-- The replace of regex `-$` by the empty string: drop one trailing dash if present. -/
def dropTrailingDash (l : List Char) : List Char :=
  if l.getLast? == some '-' then l.dropLast else l

/-- `split('-')` (empty segments kept; the caller filters them out). -/
def splitDashF : Nat → List Char → List Char → List (List Char)
  | 0, acc, l => [acc.reverse ++ l]
  | _ + 1, acc, [] => [acc.reverse]
  | fuel + 1, acc, c :: rest =>
    if c == '-' then acc.reverse :: splitDashF fuel [] rest
    else splitDashF fuel (c :: acc) rest

def splitDash (l : List Char) : List (List Char) := splitDashF l.length [] l

/-- `replace(/\s+/g, ' ')`: collapse every whitespace run to one space. -/
def collapseWsF : Nat → List Char → List Char
  | 0, l => l
  | _ + 1, [] => []
  | fuel + 1, c :: rest =>
    if isJsSpace c then ' ' :: collapseWsF fuel (rest.dropWhile isJsSpace)
    else c :: collapseWsF fuel rest

def collapseWsL (l : List Char) : List Char := collapseWsF l.length l

/-- `replace(/\s+/g, '')`: remove all whitespace. -/
def removeWsL (l : List Char) : List Char := l.filter (fun c => !isJsSpace c)

/-- `split(' ')` on the single space character, first segment (`[0]`). -/
def firstSpaceSegment (l : List Char) : List Char := l.takeWhile (fun c => c != ' ')

/-- `split(/[\s\-_]+/)` restricted to the nonempty tokens.  (JS also yields
empty strings at the edges; every use filters by `length > 2`, which discards
them, so only the maximal nonseparator runs matter.) -/
def splitWsDashUnderscoreF (fuel : Nat) (l : List Char) : List (List Char) :=
  match fuel, l with
  | 0, _ => []
  | _ + 1, [] => []
  | fuel + 1, c :: rest =>
    if isJsSpace c || c == '-' || c == '_' then splitWsDashUnderscoreF fuel rest
    else
      let tok := (c :: rest).takeWhile (fun d => !(isJsSpace d || d == '-' || d == '_'))
      tok :: splitWsDashUnderscoreF fuel ((c :: rest).drop tok.length)

def splitWsDashUnderscore (l : List Char) : List (List Char) :=
  splitWsDashUnderscoreF l.length l

/-- `array.join('-')`. -/
def joinDash : List String → String
  | [] => ""
  | [x] => x
  | x :: xs => x ++ "-" ++ joinDash xs

/-- `array.join('|')`. -/
def joinPipe : List String → String
  | [] => ""
  | [x] => x
  | x :: xs => x ++ "|" ++ joinPipe xs

/-- `array.join(' ')` over character lists. -/
def joinSpace : List (List Char) → List Char
  | [] => []
  | [x] => x
  | x :: xs => x ++ ' ' :: joinSpace xs

/-- JS string truthiness for optional fields: `undefined` and `""` are falsy. -/
def jsTruthyOpt : Option String → Bool
  | some s => s != ""
  | none => false

/-- JS `a || d` for an optional string `a` and a default `d`. -/
def jsOr (o : Option String) (d : String) : String :=
  match o with
  | some s => if s == "" then d else s
  | none => d

/-- JS `hay.includes(needle)` over `String`. -/
def jsIncludes (hay needle : String) : Bool := containsCS hay.data needle.data

/-- JS `hay.startsWith(needle)` over `String`. -/
def jsStartsWith (hay needle : String) : Bool := startsWithCS hay.data needle.data

/-! ## The parsed-filename record (`ParsedFilename` of the source) -/

/-- Output of `parseFilename`.  `type` is one of `"FULL"`, `"RE"`, `"QV"`;
`mathType`, when present, is `"PURE"` or `"APPLIED"`; `classNum` embeds the
source field `class` (a reserved word in Lean). -/
structure ParsedFilename where
  type : String := "FULL"
  academicYear : String := "Unknown"
  arabicText : Option String := none
  originalFilename : Option String := none
  mathType : Option String := none
  teacherCode : Option String := none
  branch : Option String := none
  secondaryBranch : Option String := none
  hasBranchConflict : Bool := false
  term : Option String := none
  unit : Option String := none
  lesson : Option String := none
  classNum : Option String := none
  teacherName : Option String := none
  deriving Repr, DecidableEq

/-! ## Token classifiers (the per-part regexes of the first scanning pass) -/

/-- Regex `^P[-]?(\d{4})$` (case-insensitive): returns the four captured
digits. -/
def teacherCodeDigits (p : List Char) : Option (List Char) :=
  match p with
  | c :: rest =>
    if c == 'P' || c == 'p' then
      let digits := match rest with
        | '-' :: r2 => r2
        | r2 => r2
      if digits.length == 4 && digits.all (fun d => d.isDigit) then some digits else none
    else none
  | [] => none

def isJMSChar (c : Char) : Bool :=
  c == 'J' || c == 'j' || c == 'M' || c == 'm' || c == 'S' || c == 's'

def isDigit16 (c : Char) : Bool := '1' ≤ c && c ≤ '6'

/-- Regex `^[JMS][1-6]$` (case-insensitive). -/
def isYearLevelTok (p : List Char) : Bool :=
  match p with
  | [a, b] => isJMSChar a && isDigit16 b
  | _ => false

/-- Regex `^(PURE|APPLIED)$` (case-insensitive). -/
def isMathTypeTok (p : List Char) : Bool :=
  jsToLowerL p == "pure".data || jsToLowerL p == "applied".data

/-- The closed branch-code set of `^(AR|EN|SCI|SS|MATH|Math|BIO|CH|PHY|FR|IT|GEO|GEOG|STATS|STAST|ISC|COM|PHL|PSYCH|DEU|HX)$`
(case-insensitive; the `MATH`/`Math` alternatives coincide under `/i`). -/
def branchSet : List (List Char) :=
  ["AR", "EN", "SCI", "SS", "MATH", "BIO", "CH", "PHY", "FR", "IT", "GEO",
   "GEOG", "STATS", "STAST", "ISC", "COM", "PHL", "PSYCH", "DEU", "HX"].map String.data

def isBranchTok (p : List Char) : Bool :=
  branchSet.any (fun b => jsToUpperL p == b)

/-- Regex `^T[12]$` (case-insensitive). -/
def isTermTok (p : List Char) : Bool :=
  match p with
  | [t, d] => (t == 'T' || t == 't') && (d == '1' || d == '2')
  | _ => false

/-- Regex `^U\d+$` / `^L\d+$` / `^C\d+$` (case-insensitive), parameterised by
the two letter cases. -/
def isLetterDigitsTok (up low : Char) (p : List Char) : Bool :=
  match p with
  | c :: ds => (c == up || c == low) && !ds.isEmpty && ds.all (fun d => d.isDigit)
  | [] => false

/-- Regex `^[TULCQ]\d+$` (case-insensitive): the structural identifiers skipped
during teacher-name collection. -/
def isStructTULCQ (p : List Char) : Bool :=
  match p with
  | c :: ds =>
    (c == 'T' || c == 't' || c == 'U' || c == 'u' || c == 'L' || c == 'l' ||
     c == 'C' || c == 'c' || c == 'Q' || c == 'q') &&
    !ds.isEmpty && ds.all (fun d => d.isDigit)
  | [] => false

/-- Regex `^[TULCPQ]\d+$` (case-insensitive), used in the last-resort branch. -/
def isStructTULCPQ (p : List Char) : Bool :=
  match p with
  | c :: ds =>
    (c == 'T' || c == 't' || c == 'U' || c == 'u' || c == 'L' || c == 'l' ||
     c == 'C' || c == 'c' || c == 'P' || c == 'p' || c == 'Q' || c == 'q') &&
    !ds.isEmpty && ds.all (fun d => d.isDigit)
  | [] => false

/-- Regex `/[A-Za-z]/` membership test. -/
def hasAsciiLetter (p : List Char) : Bool := p.any Char.isAlpha

/-! ## The first scanning pass (`parts.forEach`) -/

/-- The mutable locals of the `forEach` pass: the record under construction
plus the index bookkeeping (`-1` sentinels as in the source; `mathTypeIndex`
is recorded but never read afterwards, exactly as in the source). -/
structure ScanState where
  parsed : ParsedFilename
  teacherCodeIndex : Int := -1
  yearLevelIndex : Int := -1
  branchIndices : List Nat := []
  mathTypeIndex : Int := -1
  deriving Repr, DecidableEq

def applyTeacherCode (st : ScanState) (idx : Nat) (part : List Char) : ScanState :=
  match teacherCodeDigits part with
  | some digits =>
    { st with
      teacherCodeIndex := Int.ofNat idx,
      parsed := { st.parsed with teacherCode := some (String.mk ('P' :: digits)) } }
  | none => st

def applyYearLevel (st : ScanState) (idx : Nat) (part : List Char) : ScanState :=
  if isYearLevelTok part then
    { st with
      yearLevelIndex := Int.ofNat idx,
      parsed := { st.parsed with academicYear := jsToUpperS part } }
  else st

def applyMathType (st : ScanState) (idx : Nat) (part : List Char) : ScanState :=
  if isMathTypeTok part then
    { st with
      mathTypeIndex := Int.ofNat idx,
      parsed := { st.parsed with mathType := some (jsToUpperS part) } }
  else st

/-- The branch-identifier case: push the index, set `branch` when unset (the
`index < branchIndices[0]` disjunct is evaluated after the push, exactly as in
the source), and set `secondaryBranch` on the second hit. -/
def applyBranch (st : ScanState) (idx : Nat) (part : List Char) : ScanState :=
  if isBranchTok part then
    let newIndices := st.branchIndices ++ [idx]
    let st1 := { st with branchIndices := newIndices }
    let st2 :=
      if !jsTruthyOpt st1.parsed.branch || decide (idx < newIndices.headD 0) then
        { st1 with parsed := { st1.parsed with branch := some (jsToUpperS part) } }
      else st1
    if newIndices.length > 1 && !jsTruthyOpt st2.parsed.secondaryBranch then
      { st2 with parsed := { st2.parsed with secondaryBranch := some (jsToUpperS part) } }
    else st2
  else st

def applyTerm (st : ScanState) (part : List Char) : ScanState :=
  if isTermTok part then { st with parsed := { st.parsed with term := some (jsToUpperS part) } }
  else st

def applyUnit (st : ScanState) (part : List Char) : ScanState :=
  if isLetterDigitsTok 'U' 'u' part then
    { st with parsed := { st.parsed with unit := some (jsToUpperS part) } }
  else st

def applyLesson (st : ScanState) (part : List Char) : ScanState :=
  if isLetterDigitsTok 'L' 'l' part then
    { st with parsed := { st.parsed with lesson := some (jsToUpperS part) } }
  else st

def applyClass (st : ScanState) (part : List Char) : ScanState :=
  if isLetterDigitsTok 'C' 'c' part then
    { st with parsed := { st.parsed with classNum := some (jsToUpperS part) } }
  else st

/-- One `forEach` iteration: the independent `if`s of the source, in order. -/
def scanPart (st : ScanState) (idx : Nat) (part : List Char) : ScanState :=
  applyClass (applyLesson (applyUnit (applyTerm
    (applyBranch (applyMathType (applyYearLevel (applyTeacherCode st idx part) idx part) idx part) idx part) part) part) part) part

def scanParts (st : ScanState) (idx : Nat) : List (List Char) → ScanState
  | [] => st
  | p :: rest => scanParts (scanPart st idx p) (idx + 1) rest

/-! ## The remaining passes of `parseFilename` -/

/-- The SCI/AR conflict flag (`parts.includes` is an exact, case-sensitive
membership test in the source). -/
def applyBranchConflict (p : ParsedFilename) (parts : List (List Char)) : ParsedFilename :=
  if p.branch == some "SCI" && parts.any (fun q => q == "AR".data) then
    { p with hasBranchConflict := true }
  else if p.branch == some "AR" && parts.any (fun q => q == "SCI".data) then
    { p with hasBranchConflict := true }
  else p

/-- Content-type detection: `RE` on a word-bounded `RE` or any `revision`
substring; otherwise `QV` on a Q-digit pattern (in the clean name or the
Arabic text) or a word-bounded `quiz`/`test`. -/
def applyTypeDetection (p : ParsedFilename) (cleanName : List Char) : ParsedFilename :=
  if containsWordCI cleanName "RE".data || containsCI cleanName "revision".data then
    { p with type := "RE" }
  else if containsQDigitL cleanName ||
      (match p.arabicText with
       | some a => containsQDigitL a.data
       | none => false) ||
      containsWordCI cleanName "quiz".data || containsWordCI cleanName "test".data then
    { p with type := "QV" }
  else p

/-- Teacher-name extraction, stage one: the three-stage fallback chain of the
source collecting the candidate name parts. -/
def teacherNameParts (st : ScanState) (parts : List (List Char)) : List (List Char) :=
  if st.teacherCodeIndex ≥ 0 then
    (parts.drop (st.teacherCodeIndex.toNat + 1)).filter (fun q => !isStructTULCQ q)
  else if st.yearLevelIndex ≥ 0 && !st.branchIndices.isEmpty then
    let lastBranchIdx := st.branchIndices.foldl Nat.max 0
    (parts.drop (lastBranchIdx + 1)).filter (fun q => !isStructTULCQ q)
  else if !parts.isEmpty then
    match parts.reverse.find? (fun q => !isStructTULCPQ q && hasAsciiLetter q) with
    | some q => [q]
    | none => []
  else []

/-- Teacher-name extraction, stage two: join with spaces, collapse whitespace,
trim, and store only when nonempty. -/
def applyTeacherName (p : ParsedFilename) (st : ScanState) (parts : List (List Char)) : ParsedFilename :=
  let nameParts := teacherNameParts st parts
  if !nameParts.isEmpty then
    { p with teacherName := some (jsTrimS (String.mk (collapseWsL (joinSpace nameParts)))) }
  else p

/-- Academic-year fallback on the first part (full `^[JMS][1-6]$` match, else
a leading `[JMS][1-6]` prefix). -/
def applyYearFallback (p : ParsedFilename) (parts : List (List Char)) : ParsedFilename :=
  if p.academicYear == "Unknown" && !parts.isEmpty then
    let first := parts.headD []
    if isYearLevelTok first then { p with academicYear := jsToUpperS first }
    else
      match first with
      | a :: b :: _ =>
        if isJMSChar a && isDigit16 b then { p with academicYear := jsToUpperS [a, b] }
        else p
      | _ => p
  else p

/-- `nameOnly` of the source: the pre-dot prefix with dash runs collapsed,
underscores turned into dashes, and whitespace around dashes removed. -/
def parseNameOnly (filename : String) : List Char :=
  normDashSpace (underscoresToDashes (collapseDashRuns (takeUntilDot filename.data)))

/-- `arabicText` of the source: the trimmed capture of the first braced group
of the raw filename. -/
def parseArabicText (filename : String) : Option String :=
  (firstBraceCapture filename.data).map (fun cap => String.mk (jsTrimL cap))

/-- `cleanName` of the source: `nameOnly` with the braced group removed, one
trailing dash dropped, and the result trimmed. -/
def parseCleanName (filename : String) : List Char :=
  jsTrimL (dropTrailingDash (removeFirstBrace (parseNameOnly filename)))

/-- `parts` of the source: the dash-separated nonempty components. -/
def parseParts (filename : String) : List (List Char) :=
  (splitDash (parseCleanName filename)).filter (fun q => !q.isEmpty)

/-- The defaults the source record starts from, plus the index sentinels. -/
def initialScanState (filename : String) : ScanState :=
  { parsed :=
      { type := "FULL", academicYear := "Unknown", arabicText := parseArabicText filename,
        originalFilename := some filename, mathType := none } }

/-- The state after the first scanning pass over all parts. -/
def parseScan (filename : String) : ScanState :=
  scanParts (initialScanState filename) 0 (parseParts filename)

/-- The body of the source `parseFilename` (the code inside its `try` block;
the `year` parameter is accepted, and its `COLLECTIONS_CONFIG` lookup is dead
in the source: `configs` is never used). -/
def parseFilename (filename : String) (year : String) : ParsedFilename :=
  applyYearFallback
    (applyTeacherName
      (applyTypeDetection
        (applyBranchConflict (parseScan filename).parsed (parseParts filename))
        (parseCleanName filename))
      (parseScan filename) (parseParts filename))
    (parseParts filename)

/-- The record the source `catch` handler returns: `type = 'FULL'`,
`academicYear = 'Error'`, and no other field populated. -/
def errorParsedFilename : ParsedFilename :=
  { type := "FULL", academicYear := "Error", arabicText := none, mathType := none }

/-- A JS argument in the `filename` position.  The TypeScript signature says
`string`, but JS does not enforce it: a non-string value (`undefined`, `null`,
a number, ...) makes `filename.split` throw a `TypeError` inside the `try`
block.  On genuine strings the body is total, so this is the only exception
source. -/
inductive JsStringArg where
  | str (s : String)
  | nonString
  deriving Repr, DecidableEq

/-- The `try` block of the source `parseFilename`, with the possible exception
made explicit. -/
def parseFilenameDyn : JsStringArg → String → Except String ParsedFilename
  | JsStringArg.str f, y => Except.ok (parseFilename f y)
  | JsStringArg.nonString, _ => Except.error "TypeError: filename.split is not a function"

/-- The full source `parseFilename` including its `catch` handler: an error is
never rethrown, the sentinel record is returned instead. -/
def parseFilenameJS (a : JsStringArg) (y : String) : ParsedFilename :=
  match parseFilenameDyn a y with
  | Except.ok r => r
  | Except.error _ => errorParsedFilename

/-! ## Collection routing (`determineCollection` and its helpers) -/

/-- Does the filename start with `RE` followed by a dash, an underscore, or at
least one whitespace character (regex `^RE-|^RE_|^RE\s+`, case-insensitive)? -/
def startsWithREsep (l : List Char) : Bool :=
  match l with
  | r :: e :: c :: _ =>
    (r == 'R' || r == 'r') && (e == 'E' || e == 'e') &&
    (c == '-' || c == '_' || isJsSpace c)
  | _ => false

/-- `isRevisionFile` of the source.  Note that in `/\bمراجعة\b/i` the Arabic
letters are non-word characters, so that alternative only matches when the
word is directly adjacent to `[A-Za-z0-9_]` characters; the generic boundary
model in `containsWordCI` reproduces this. -/
def isRevisionFile (p : ParsedFilename) : Bool :=
  if p.type == "RE" then true
  else
    let filename := (p.originalFilename.getD "").data
    if startsWithREsep filename then true
    else if containsWordCI filename "revision".data || containsWordCI filename "revise".data ||
        containsWordCI filename "مراجعة".data then true
    else
      match p.arabicText with
      | some a =>
        a != "" &&
          (containsCS a.data "مراجعة".data || containsCS a.data "تدريب".data ||
           containsCS a.data "مذاكرة".data)
      | none => false

/-- `isQuestionFile` of the source: the five ordered priorities.  Priority 4
excludes letter-word-plus-space phrases before `quiz` — but it is only reached
when `type` is not already `QV`. -/
def isQuestionFile (p : ParsedFilename) : Bool :=
  if p.type == "QV" then true
  else
    let filename := (p.originalFilename.getD "").data
    if containsQDigitL filename then true
    else if
        (match p.arabicText with
         | some a => a != "" && containsQDigitL a.data
         | none => false) then true
    else if
        (match p.arabicText with
         | some a =>
           a != "" &&
             (kwWsDigitsAnywhere a.data "سؤال".data || kwWsDigitsAnywhere a.data "أسئلة".data ||
              kwWsDigitsAnywhere a.data "اختبار".data || kwWsDigitsAnywhere a.data "امتحان".data ||
              (containsCS a.data "واجب".data &&
                (containsQDigitL a.data || containsCS a.data "سؤال".data ||
                 containsCS a.data "أسئلة".data)))
         | none => false) then true
    else if (containsWordCI filename "quiz".data || containsWordCI filename "test".data ||
        containsWordCI filename "exam".data) && !phraseWordQuiz filename then true
    else if kwWsDigitsBounded filename "hw".data ||
        kwWsDigitsBounded filename "homework".data then true
    else false

/-- `determineFileTerm` when no `term` field is present: word-bounded `T1`/`T2`
in the filename, then the English/Arabic term phrases, then the Arabic-text
phrases, then the `T1` default. -/
def determineFileTermFromName (p : ParsedFilename) : String :=
  let filename := (p.originalFilename.getD "").data
  match findWordT12 filename with
  | some t => t
  | none =>
    if boundedSeq filename "term".data "1".data ||
        boundedSeq filename "الفصل".data "الأول".data ||
        boundedSeq filename "الترم".data "الأول".data then "T1"
    else if boundedSeq filename "term".data "2".data ||
        boundedSeq filename "الفصل".data "الثاني".data ||
        boundedSeq filename "الترم".data "الثاني".data then "T2"
    else
      match p.arabicText with
      | some a =>
        if a != "" &&
            (containsCS a.data "الفصل الأول".data || containsCS a.data "الترم الأول".data) then "T1"
        else if a != "" &&
            (containsCS a.data "الفصل الثاني".data || containsCS a.data "الترم الثاني".data) then "T2"
        else "T1"
      | none => "T1"

/-- `determineFileTerm` of the source (JS truthiness on the `term` field). -/
def determineFileTerm (p : ParsedFilename) : String :=
  match p.term with
  | some t => if t != "" then t else determineFileTermFromName p
  | none => determineFileTermFromName p

structure CollectionResult where
  name : String
  reason : String
  deriving Repr, DecidableEq

/-- `determineCollection` of the source.  The `!parsed` disjunct of its error
check cannot fire in the embedding (the record is never null), so only the
`academicYear === 'Error'` test remains. -/
def determineCollection (p : ParsedFilename) (year : String) : CollectionResult :=
  if p.academicYear = "Error" then
    { name := "ParsingError-" ++ year, reason := "Could not parse filename" }
  else
    let isRevision := isRevisionFile p
    let isQuestion := isQuestionFile p ||
      (match p.arabicText with
       | some a => a != "" && containsQDigitL a.data
       | none => false) ||
      (match p.originalFilename with
       | some f => f != "" && containsQDigitL f.data
       | none => false)
    let term := determineFileTerm p
    if isRevision then
      if isQuestion then
        { name := "RE-" ++ term ++ "-" ++ year ++ "-QV",
          reason := "Revision with questions (contains RE and ends with Q pattern)" }
      else
        { name := "RE-" ++ year,
          reason := "Regular revision video (starts with RE, no question pattern)" }
    else
      if isQuestion then
        { name := term ++ "-" ++ year ++ "-QV",
          reason := "Question video for " ++ term ++ " (ends with Q pattern)" }
      else
        { name := term ++ "-" ++ year,
          reason := "Regular content video for " ++ term }

/-- `determineLibrary` of the source: the joined significant parts, or the
manual-check sentinel when fewer than two survive the filter. -/
def determineLibrary (p : ParsedFilename) : String :=
  let raw : List String :=
    [p.academicYear,
     p.mathType.getD "",
     jsOr p.branch "UnknownBranch",
     jsOr p.teacherCode "UnknownCode",
     jsOr p.teacherName "UnknownTeacher"]
  let parts := raw.filter (fun part => part ≠ "" ∧ part ≠ "Unknown" ∧ part ≠ "Error")
  if parts.length < 2 then "Unknown-Library-Needs-Manual-Check"
  else joinDash parts

/-! ## Library scoring (`findMatchingLibrary` of the source) -/

structure LibraryInfo where
  id : String
  name : String
  deriving Repr, DecidableEq

structure LibraryMatch where
  library : Option LibraryInfo
  confidence : Int
  alternatives : List LibraryInfo
  deriving Repr, DecidableEq

/-- Rule 1: teacher code present verbatim in the library name (+40). -/
def teacherCodeBonus (p : ParsedFilename) (name : String) : Int :=
  match p.teacherCode with
  | some tc => if tc ≠ "" ∧ jsIncludes name tc then 40 else 0
  | none => 0

/-- Rule 2: academic year as a name prefix or a dash-delimited segment (+30). -/
def academicYearBonus (p : ParsedFilename) (name : String) : Int :=
  if p.academicYear ≠ "" ∧ p.academicYear ≠ "Unknown" ∧ p.academicYear ≠ "Error" ∧
      (jsStartsWith name p.academicYear = true ∨
       jsIncludes name ("-" ++ p.academicYear ++ "-") = true) then 30
  else 0

/-- Rule 3: the PURE/APPLIED matrix (+80 exact, +40 mixed, -50 opposite; +20
for plain libraries and +5 for specialised ones when the file has no track). -/
def mathTypeBonus (p : ParsedFilename) (name : String) : Int :=
  let libNameUpper := jsToUpperS name.data
  let hasPure := jsIncludes libNameUpper "PURE"
  let hasApplied := jsIncludes libNameUpper "APPLIED"
  if jsTruthyOpt p.mathType then
    if p.mathType == some "PURE" then
      if hasPure ∧ ¬hasApplied then 80
      else if hasPure ∧ hasApplied then 40
      else if hasApplied ∧ ¬hasPure then -50
      else 0
    else if p.mathType == some "APPLIED" then
      if hasApplied ∧ ¬hasPure then 80
      else if hasPure ∧ hasApplied then 40
      else if hasPure ∧ ¬hasApplied then -50
      else 0
    else 0
  else
    if ¬hasPure ∧ ¬hasApplied then 20 else 5

/-- Rule 4: branch present as a (possibly dash-delimited) segment (+25). -/
def branchMatchBonus (p : ParsedFilename) (name : String) : Int :=
  match p.branch with
  | some b =>
    if b ≠ "" then
      let patterns := ["-" ++ b ++ "-", "-" ++ jsToLowerS b ++ "-", b ++ "-", jsToLowerS b ++ "-"]
      if patterns.any (fun pat =>
          jsIncludes (jsToUpperS name.data) (jsToUpperS pat.data) || jsIncludes name pat) then 25
      else 0
    else 0
  | none => 0

/-- Rule 5: whitespace-stripped lowercase teacher name as a substring of the
whitespace-stripped lowercase library name (+15). -/
def teacherNameBonus (p : ParsedFilename) (name : String) : Int :=
  match p.teacherName with
  | some tn =>
    if tn ≠ "" then
      let normalizedLibName := String.mk (removeWsL (jsToLowerL name.data))
      let normalizedTeacherName := String.mk (removeWsL (jsToLowerL tn.data))
      if jsIncludes normalizedLibName normalizedTeacherName then 15 else 0
    else 0
  | none => 0

/-- The per-candidate additive score before clamping. -/
def rawScore (p : ParsedFilename) (name : String) : Int :=
  teacherCodeBonus p name + academicYearBonus p name + mathTypeBonus p name +
    branchMatchBonus p name + teacherNameBonus p name

/-- The per-candidate score after the ceiling (`min score 200`) and the floor
(`max score (-30)`), in the source's order. -/
def scoreLibrary (p : ParsedFilename) (lib : LibraryInfo) : Int :=
  max (min (rawScore p lib.name) 200) (-30)

/-- The candidates kept by the hard rejection threshold `score > -20`, paired
with their clamped scores, in candidate order. -/
def scoredMatches (p : ParsedFilename) (libraries : List LibraryInfo) :
    List (LibraryInfo × Int) :=
  (libraries.map (fun l => (l, scoreLibrary p l))).filter (fun m => decide (m.2 > -20))

/-- Stable insertion of a later element after all existing elements with a
greater-or-equal score (the JS stable `sort((a, b) => b.score - a.score)`). -/
def insertMatchDesc (x : LibraryInfo × Int) : List (LibraryInfo × Int) → List (LibraryInfo × Int)
  | [] => [x]
  | y :: ys => if x.2 > y.2 then x :: y :: ys else y :: insertMatchDesc x ys

def sortMatchesDesc (l : List (LibraryInfo × Int)) : List (LibraryInfo × Int) :=
  l.foldl (fun acc x => insertMatchDesc x acc) []

/-- `findMatchingLibrary` of the source: stable descending sort of the kept
candidates, best match (or null), its score (or 0), and the top five
alternatives.  (The log-only `scoreBreakdown` object is omitted.) -/
def findMatchingLibrary (p : ParsedFilename) (libraries : List LibraryInfo) : LibraryMatch :=
  let sorted := sortMatchesDesc (scoredMatches p libraries)
  { library := sorted.head?.map (fun m => m.1),
    confidence :=
      match sorted.head? with
      | some m => m.2
      | none => 0,
    alternatives := (sorted.take 5).map (fun m => m.1) }

/-! ## The `LibraryMatcher` class: caches, pattern keys and the matching flow -/

/-- A pattern-cache value (`{libraryId, libraryName, confidence}`). -/
structure CacheEntry where
  libraryId : String
  libraryName : String
  confidence : Int
  deriving Repr, DecidableEq

/-- A user-selection / conflict / manual-mapping value (`{libraryId, libraryName}`). -/
structure SelEntry where
  libraryId : String
  libraryName : String
  deriving Repr, DecidableEq

/-- A JS `Map` modelled as an association list where `set` prepends a binding
that shadows older ones; `get` takes the most recent binding.  The modelled
code only ever calls `get`, `set` and `has`, for which this is extensionally
the `Map` behaviour. -/
def mapGet {V : Type} (m : List (String × V)) (k : String) : Option V :=
  (m.find? (fun e => e.1 == k)).map (fun e => e.2)

def mapSet {V : Type} (m : List (String × V)) (k : String) (v : V) : List (String × V) :=
  (k, v) :: m

/-- The four private caches of `LibraryMatcher`. -/
structure MatcherState where
  matchCache : List (String × CacheEntry) := []
  userSelectionCache : List (String × SelEntry) := []
  subjectConflictCache : List (String × SelEntry) := []
  manualMappings : List (String × SelEntry) := []
  deriving Repr, DecidableEq

/-- The queue-item metadata fields the matching flow reads or writes. -/
structure Suggestion where
  id : String
  name : String
  score : Int
  deriving Repr, DecidableEq

structure ItemMetadata where
  year : Option String := none
  library : String := ""
  libraryName : String := ""
  needsManualSelection : Bool := false
  confidence : Int := 0
  collection : String := ""
  reason : String := ""
  suggestedLibraries : List Suggestion := []
  suggestedLibraryName : String := ""
  deriving Repr, DecidableEq

structure QueueItem where
  filename : String
  metadata : ItemMetadata
  deriving Repr, DecidableEq

/-- `getFilePatternKey` of the source, in the branch where a parsed record is
supplied (every modelled call site passes one, so the `parsed ||` refetch and
the `catch` fallback are dead). -/
def getFilePatternKey (filename : String) (parsed : ParsedFilename) : String :=
  let keyParts : List String :=
    (if parsed.academicYear ≠ "" then [parsed.academicYear] else []) ++
    (match parsed.mathType with
     | some mt => if mt ≠ "" then [mt] else []
     | none => []) ++
    (match parsed.branch with
     | some b => if b ≠ "" then [b] else []
     | none => []) ++
    (match parsed.teacherCode with
     | some tc => if tc ≠ "" then [tc] else []
     | none => []) ++
    (if ¬jsTruthyOpt parsed.teacherCode ∧ jsTruthyOpt parsed.teacherName then
      let firstNamePart := String.mk (firstSpaceSegment (parsed.teacherName.getD "").data)
      if firstNamePart ≠ "" then [jsToLowerS firstNamePart] else []
    else [])
  joinDash keyParts

/-- `getEnhancedPatternKey` of the source. -/
def getEnhancedPatternKey (parsed : ParsedFilename) : Option String :=
  let parts : List String :=
    (if parsed.academicYear ≠ "" then [parsed.academicYear] else []) ++
    (match parsed.mathType with
     | some mt => if mt ≠ "" then [mt] else []
     | none => []) ++
    (match parsed.branch with
     | some b => if b ≠ "" then [b] else []
     | none => []) ++
    (match parsed.teacherCode with
     | some tc => if tc ≠ "" then [tc] else []
     | none => [])
  if parts.length ≥ 2 then some ("enhanced:" ++ joinDash parts) else none

/-- The optional `-PURE`/`-APPLIED` infix of the template literals
(`${parsed.mathType ? '-' + parsed.mathType : ''}`). -/
def mathTypeInfix (parsed : ParsedFilename) : String :=
  match parsed.mathType with
  | some mt => if mt ≠ "" then "-" ++ mt else ""
  | none => ""

/-- The optional `-P0000` suffix (`${parsed.teacherCode ? '-' + parsed.teacherCode : ''}`). -/
def teacherCodeSuffix (parsed : ParsedFilename) : String :=
  match parsed.teacherCode with
  | some tc => if tc ≠ "" then "-" ++ tc else ""
  | none => ""

/-- `generateAlternateKeys` of the source, alternates in the source's order. -/
def generateAlternateKeys (parsed : ParsedFilename) : List String :=
  let keys1 : List String :=
    if jsTruthyOpt parsed.mathType ∧ parsed.academicYear ≠ "" ∧ jsTruthyOpt parsed.teacherCode then
      [parsed.academicYear ++ "-" ++ parsed.mathType.getD "" ++ "-" ++ parsed.teacherCode.getD ""] ++
      (if jsTruthyOpt parsed.branch then
        [parsed.academicYear ++ "-" ++ parsed.mathType.getD "" ++ "-" ++ parsed.branch.getD "" ++
          "-" ++ parsed.teacherCode.getD ""]
      else [])
    else []
  let keys2 : List String :=
    if parsed.academicYear ≠ "" ∧ jsTruthyOpt parsed.branch then
      (if parsed.branch == some "SCI" then
        [parsed.academicYear ++ mathTypeInfix parsed ++ "-AR" ++ teacherCodeSuffix parsed]
      else if parsed.branch == some "AR" then
        [parsed.academicYear ++ mathTypeInfix parsed ++ "-SCI" ++ teacherCodeSuffix parsed]
      else []) ++
      (if jsTruthyOpt parsed.teacherCode then
        [parsed.academicYear ++ mathTypeInfix parsed ++ "-" ++ parsed.teacherCode.getD ""]
      else if jsTruthyOpt parsed.teacherName then
        let firstNamePart := String.mk (firstSpaceSegment (parsed.teacherName.getD "").data)
        if firstNamePart ≠ "" then
          [parsed.academicYear ++ mathTypeInfix parsed ++ "-" ++ jsToLowerS firstNamePart]
        else []
      else [])
    else []
  let keys3 : List String :=
    if parsed.academicYear ≠ "" ∧ jsTruthyOpt parsed.teacherCode ∧ ¬jsTruthyOpt parsed.branch then
      ["AR", "EN", "SCI", "MATH", "SS"].map (fun subj =>
        parsed.academicYear ++ mathTypeInfix parsed ++ "-" ++ subj ++ "-" ++ parsed.teacherCode.getD "")
    else []
  (keys1 ++ keys2 ++ keys3).filter (fun k => k ≠ "")

/-- Regex `/SCI.*AR|AR.*SCI/i`: one keyword, then any characters other than a
line terminator, then the other keyword: an occurrence of `w1` followed,
within the line-terminator-free remainder, by an occurrence of `w2`. -/
def orderedCISeq (s w1 w2 : List Char) : Bool :=
  match s with
  | [] => false
  | c :: rest =>
    (match ciStrip (c :: rest) w1 with
     | some after =>
       containsCI (after.takeWhile (fun d => d != '\n' && d != '\r')) w2
     | none => false) ||
    orderedCISeq rest w1 w2

def sciArPattern (s : List Char) : Bool :=
  orderedCISeq s "SCI".data "AR".data || orderedCISeq s "AR".data "SCI".data

/-- `getSubjectConflictKey` of the source. -/
def getSubjectConflictKey (filename : String) (parsed : ParsedFilename) : Option String :=
  if sciArPattern filename.data then
    let parts : List String :=
      (if parsed.academicYear ≠ "" then [parsed.academicYear] else []) ++
      (match parsed.mathType with
       | some mt => if mt ≠ "" then [mt] else []
       | none => []) ++
      (if jsTruthyOpt parsed.teacherCode then [parsed.teacherCode.getD ""]
       else if jsTruthyOpt parsed.teacherName then
        [jsToLowerS (String.mk (firstSpaceSegment (parsed.teacherName.getD "").data))]
       else [])
    if parts.length > 0 then some ("conflict:" ++ joinDash parts) else none
  else none

/-- `calculateMatchScore` of the source (used only for the suggestion list). -/
def calculateMatchScore (libraryName : String) (parsed : ParsedFilename) : Int :=
  let normalizedLibName := jsToLowerS libraryName
  let s1 :=
    if parsed.academicYear ≠ "" ∧ jsIncludes normalizedLibName (jsToLowerS parsed.academicYear) then
      (30 : Int)
    else 0
  let s2 :=
    if jsTruthyOpt parsed.teacherCode ∧
        jsIncludes normalizedLibName (jsToLowerS (parsed.teacherCode.getD "")) then (40 : Int)
    else 0
  let s3 :=
    if jsTruthyOpt parsed.mathType ∧
        jsIncludes normalizedLibName (jsToLowerS (parsed.mathType.getD "")) then (35 : Int)
    else 0
  let s4 :=
    if jsTruthyOpt parsed.teacherName then
      ((jsToLowerS (parsed.teacherName.getD "")).split (fun c => c = ' ')).foldl
        (fun acc part =>
          if part.length > 2 ∧ jsIncludes normalizedLibName part then acc + 15 else acc)
        (0 : Int)
    else 0
  let s5 :=
    if jsTruthyOpt parsed.branch ∧
        jsIncludes normalizedLibName (jsToLowerS (parsed.branch.getD "")) then (15 : Int)
    else 0
  min (s1 + s2 + s3 + s4 + s5) 100

def insertSuggDesc (x : Suggestion) : List Suggestion → List Suggestion
  | [] => [x]
  | y :: ys => if x.score > y.score then x :: y :: ys else y :: insertSuggDesc x ys

def sortSuggDesc (l : List Suggestion) : List Suggestion :=
  l.foldl (fun acc x => insertSuggDesc x acc) []

/-- `getSuggestedLibraries` of the source: the current best match first at
score 100, then every unseen candidate scoring above 30, sorted stably by
score and truncated to five. -/
def getSuggestedLibraries (parsed : ParsedFilename) (libraries : List LibraryInfo)
    (currentLibraryId : Option String) : List Suggestion :=
  let start : List Suggestion × List String :=
    if jsTruthyOpt currentLibraryId then
      match libraries.find? (fun lib => lib.id == currentLibraryId.getD "") with
      | some currentLib => ([⟨currentLib.id, currentLib.name, 100⟩], [currentLib.id])
      | none => ([], [])
    else ([], [])
  let folded := libraries.foldl
    (fun (acc : List Suggestion × List String) lib =>
      if acc.2.contains lib.id then acc
      else
        let score := calculateMatchScore lib.name parsed
        if score > 30 then (acc.1 ++ [⟨lib.id, lib.name, score⟩], acc.2 ++ [lib.id])
        else acc)
    start
  (sortSuggDesc folded.1).take 5

/-- `checkSpecialMatchRules` of the source.  Rule 4 reads `parsed.filename`,
which is not a field of `ParsedFilename` (it is `undefined` in JS), so its
`hasSciAr` guard is always falsy and the rule never fires; it is embedded as
`false`. -/
def checkSpecialMatchRules (parsed : ParsedFilename) (bestMatch : LibraryMatch) : Bool :=
  match bestMatch.library with
  | none => false
  | some lib =>
    (jsTruthyOpt parsed.mathType &&
      jsIncludes (jsToUpperS lib.name.data) (parsed.mathType.getD "") &&
      decide (bestMatch.confidence ≥ 65)) ||
    (jsTruthyOpt parsed.teacherCode &&
      jsIncludes lib.name (parsed.teacherCode.getD "") &&
      decide (bestMatch.confidence ≥ 55)) ||
    (decide (parsed.academicYear ≠ "") && jsTruthyOpt parsed.branch &&
      jsTruthyOpt parsed.teacherName &&
      jsStartsWith lib.name parsed.academicYear &&
      jsIncludes lib.name (parsed.branch.getD "") &&
      decide (bestMatch.confidence ≥ 60)) ||
    false

/-- `determineSuggestedLibraryName` of the source: `parseFilename` with its
default year, then `determineLibrary` (the null fallback and the `catch`
branch are dead in the embedding). -/
def determineSuggestedLibraryName (filename : String) (year : String) : String :=
  determineLibrary (parseFilename filename "2026")

/-- `applyMatchAndCache` of the source: write the match into the item metadata
and into the pattern, enhanced, alternate and conflict caches. -/
def applyMatchAndCache (st : MatcherState) (item : QueueItem) (libraryId libraryName : String)
    (confidence : Int) (parseResult : ParsedFilename) (year : String) :
    QueueItem × MatcherState :=
  let collectionResult := determineCollection parseResult year
  let item1 : QueueItem :=
    { item with
      metadata :=
        { item.metadata with
          library := libraryId, libraryName := libraryName, needsManualSelection := false,
          confidence := confidence, collection := collectionResult.name,
          reason := collectionResult.reason } }
  let patternKey := getFilePatternKey item.filename parseResult
  let st1 := { st with matchCache := mapSet st.matchCache patternKey ⟨libraryId, libraryName, confidence⟩ }
  let st2 :=
    match getEnhancedPatternKey parseResult with
    | some k => { st1 with matchCache := mapSet st1.matchCache k ⟨libraryId, libraryName, confidence⟩ }
    | none => st1
  let st3 := (generateAlternateKeys parseResult).foldl
    (fun s key =>
      if key ≠ "" ∧ key ≠ patternKey then
        { s with matchCache := mapSet s.matchCache key ⟨libraryId, libraryName, confidence - 5⟩ }
      else s)
    st2
  let st4 :=
    match getSubjectConflictKey item.filename parseResult with
    | some ck =>
      { st3 with subjectConflictCache := mapSet st3.subjectConflictCache ck ⟨libraryId, libraryName⟩ }
    | none => st3
  (item1, st4)

/-- The manual-selection branch of `tryMatchLibrary` (the `else` of the
auto-apply decision). -/
def manualSelectionResult (st : MatcherState) (item1 : QueueItem) (parseResult : ParsedFilename)
    (bestMatch : LibraryMatch) (selectedYear filename : String) : QueueItem × MatcherState :=
  let collectionResult := determineCollection parseResult selectedYear
  ({ item1 with
     metadata :=
       { item1.metadata with
         needsManualSelection := true, library := "", libraryName := "",
         suggestedLibraryName := determineSuggestedLibraryName filename parseResult.academicYear,
         collection := collectionResult.name, reason := collectionResult.reason,
         confidence := bestMatch.confidence } }, st)

/-- The `try` block of `tryMatchLibrary`: the thrown "No libraries available"
error is explicit in the `Except`.  The candidate list stands for the awaited
`getLibraries()` result; the `!parseResult` throw is dead (the embedded parser
is total).  In the `hasMathTypeMatch` guard the source reads
`bestMatch.library.name` after checking `confidence >= 70`; when the library
is null the confidence is 0, so the access is unreachable and the null case is
embedded as `false`. -/
def tryMatchLibraryTry (st : MatcherState) (item : QueueItem) (libraries : List LibraryInfo) :
    Except String (QueueItem × MatcherState) :=
  if libraries = [] then Except.error "No libraries available to match against."
  else
    let selectedYear := jsOr item.metadata.year "2026"
    let parseResult := parseFilename item.filename selectedYear
    match mapGet st.userSelectionCache item.filename with
    | some sel =>
      Except.ok (applyMatchAndCache st item sel.libraryId sel.libraryName 100 parseResult selectedYear)
    | none =>
      let bestMatch := findMatchingLibrary parseResult libraries
      let patternKey := getFilePatternKey item.filename parseResult
      match mapGet st.matchCache patternKey with
      | some patternMatch =>
        Except.ok (applyMatchAndCache st item patternMatch.libraryId patternMatch.libraryName
          patternMatch.confidence parseResult selectedYear)
      | none =>
        let suggested := getSuggestedLibraries parseResult libraries
          (bestMatch.library.map (fun l => l.id))
        let item1 : QueueItem :=
          { item with metadata := { item.metadata with suggestedLibraries := suggested } }
        let hasHighConfidence := decide (bestMatch.confidence ≥ 75)
        let exactTeacherCodeMatch :=
          jsTruthyOpt parseResult.teacherCode &&
            (match bestMatch.library with
             | some lib => jsIncludes lib.name (parseResult.teacherCode.getD "")
             | none => false)
        let hasMathTypeMatch :=
          jsTruthyOpt parseResult.mathType && decide (bestMatch.confidence ≥ 70) &&
            (match bestMatch.library with
             | some lib => jsIncludes (jsToUpperS lib.name.data) (parseResult.mathType.getD "")
             | none => false)
        let hasSpecialMatch := checkSpecialMatchRules parseResult bestMatch
        match bestMatch.library with
        | some lib =>
          if hasHighConfidence || exactTeacherCodeMatch || hasMathTypeMatch || hasSpecialMatch then
            Except.ok (applyMatchAndCache st item1 lib.id lib.name bestMatch.confidence
              parseResult selectedYear)
          else
            Except.ok (manualSelectionResult st item1 parseResult bestMatch selectedYear item.filename)
        | none =>
          Except.ok (manualSelectionResult st item1 parseResult bestMatch selectedYear item.filename)

/-- `tryMatchLibrary` of the source including its `catch` handler: any error —
in particular the empty-candidate-list throw — is swallowed, and the item is
degraded to manual selection with confidence 0 (the handler recomputes only
the collection; it does not touch `reason` or the suggestion list, and it
leaves the caches unchanged). -/
def tryMatchLibrary (st : MatcherState) (item : QueueItem) (libraries : List LibraryInfo) :
    QueueItem × MatcherState :=
  match tryMatchLibraryTry st item libraries with
  | Except.ok r => r
  | Except.error _ =>
    let y := jsOr item.metadata.year "2026"
    let fallback := determineCollection (parseFilename item.filename y) y
    ({ item with
       metadata :=
         { item.metadata with
           needsManualSelection := true, library := "", libraryName := "",
           collection := fallback.name, confidence := 0 } }, st)

/-- `Number(w)` for a token with no whitespace: the decimal, hex, octal,
binary and Infinity forms produce a number; everything else is `NaN`. -/
def jsParsesAsNumber (w : List Char) : Bool :=
  let unsigned :=
    match w with
    | c :: r => if c == '+' || c == '-' then r else w
    | [] => w
  let decimalLike :=
    let intPart := unsigned.takeWhile (fun d => d.isDigit)
    let rest1 := unsigned.drop intPart.length
    let mantissaOk :=
      match rest1 with
      | [] => !intPart.isEmpty
      | '.' :: frac =>
        let fracDigits := frac.takeWhile (fun d => d.isDigit)
        (!intPart.isEmpty || !fracDigits.isEmpty) && frac.drop fracDigits.length == []
      | 'e' :: _ => !intPart.isEmpty
      | 'E' :: _ => !intPart.isEmpty
      | _ => false
    let afterMantissa :=
      match rest1 with
      | '.' :: frac => frac.drop (frac.takeWhile (fun d => d.isDigit)).length
      | r => r
    let expOk :=
      match afterMantissa with
      | [] => true
      | e :: r2 =>
        (e == 'e' || e == 'E') &&
          (let r3 := match r2 with
            | c :: r4 => if c == '+' || c == '-' then r4 else r2
            | [] => r2
           !r3.isEmpty && r3.all (fun d => d.isDigit))
    mantissaOk && expOk
  let prefixedLike (x1 x2 : Char) (digitOk : Char → Bool) : Bool :=
    match w with
    | '0' :: c :: ds => (c == x1 || c == x2) && !ds.isEmpty && ds.all digitOk
    | _ => false
  w.isEmpty || decimalLike ||
    prefixedLike 'x' 'X' (fun d => d.isDigit || ('a' ≤ d && d ≤ 'f') || ('A' ≤ d && d ≤ 'F')) ||
    prefixedLike 'o' 'O' (fun d => '0' ≤ d && d ≤ '7') ||
    prefixedLike 'b' 'B' (fun d => d == '0' || d == '1') ||
    unsigned == "Infinity".data

/-- `learnFromManualSelection` of the source: record the exact filename in the
user-selection cache, seed the pattern caches at confidences 95/90, and store
a first-write-wins keyword mapping (its persistence to local storage is an
external effect outside the embedding). -/
def learnFromManualSelection (st : MatcherState) (filename libraryId libraryName : String) :
    MatcherState :=
  let parsed := parseFilename filename "2026"
  let st1 := { st with userSelectionCache := mapSet st.userSelectionCache filename ⟨libraryId, libraryName⟩ }
  let st2 :=
    match getEnhancedPatternKey parsed with
    | some k => { st1 with matchCache := mapSet st1.matchCache k ⟨libraryId, libraryName, 95⟩ }
    | none => st1
  let patternKey := getFilePatternKey filename parsed
  let st3 := { st2 with matchCache := mapSet st2.matchCache patternKey ⟨libraryId, libraryName, 90⟩ }
  let keywords := (splitWsDashUnderscore filename.data).filter
    (fun word => word.length > 2 && !jsParsesAsNumber word)
  let key := jsToLowerS (joinPipe (keywords.map String.mk))
  if key != "" && (mapGet st3.manualMappings key).isNone then
    { st3 with manualMappings := mapSet st3.manualMappings key ⟨libraryId, libraryName⟩ }
  else st3

/-! ## Structural lemmas about the scanning pass -/

theorem applyTeacherCode_parsedFields (st : ScanState) (idx : Nat) (part : List Char) :
    (applyTeacherCode st idx part).parsed.term = st.parsed.term ∧
    (applyTeacherCode st idx part).parsed.originalFilename = st.parsed.originalFilename := by
  unfold applyTeacherCode
  split <;> exact ⟨rfl, rfl⟩

theorem applyYearLevel_parsedFields (st : ScanState) (idx : Nat) (part : List Char) :
    (applyYearLevel st idx part).parsed.term = st.parsed.term ∧
    (applyYearLevel st idx part).parsed.originalFilename = st.parsed.originalFilename := by
  unfold applyYearLevel
  split <;> exact ⟨rfl, rfl⟩

theorem applyMathType_parsedFields (st : ScanState) (idx : Nat) (part : List Char) :
    (applyMathType st idx part).parsed.term = st.parsed.term ∧
    (applyMathType st idx part).parsed.originalFilename = st.parsed.originalFilename := by
  unfold applyMathType
  split <;> exact ⟨rfl, rfl⟩

theorem applyBranch_parsedFields (st : ScanState) (idx : Nat) (part : List Char) :
    (applyBranch st idx part).parsed.term = st.parsed.term ∧
    (applyBranch st idx part).parsed.originalFilename = st.parsed.originalFilename := by
  unfold applyBranch
  dsimp only
  split
  · split <;> split <;> exact ⟨rfl, rfl⟩
  · exact ⟨rfl, rfl⟩

theorem applyUnit_parsedFields (st : ScanState) (part : List Char) :
    (applyUnit st part).parsed.term = st.parsed.term ∧
    (applyUnit st part).parsed.originalFilename = st.parsed.originalFilename := by
  unfold applyUnit
  split <;> exact ⟨rfl, rfl⟩

theorem applyLesson_parsedFields (st : ScanState) (part : List Char) :
    (applyLesson st part).parsed.term = st.parsed.term ∧
    (applyLesson st part).parsed.originalFilename = st.parsed.originalFilename := by
  unfold applyLesson
  split <;> exact ⟨rfl, rfl⟩

theorem applyClass_parsedFields (st : ScanState) (part : List Char) :
    (applyClass st part).parsed.term = st.parsed.term ∧
    (applyClass st part).parsed.originalFilename = st.parsed.originalFilename := by
  unfold applyClass
  split <;> exact ⟨rfl, rfl⟩

theorem applyTerm_originalFilename (st : ScanState) (part : List Char) :
    (applyTerm st part).parsed.originalFilename = st.parsed.originalFilename := by
  unfold applyTerm
  split <;> rfl

/-- A matched term token uppercases to exactly `"T1"` or `"T2"`. -/
theorem isTermTok_upper {part : List Char} (h : isTermTok part = true) :
    jsToUpperS part = "T1" ∨ jsToUpperS part = "T2" := by
  match part with
  | [] => simp [isTermTok] at h
  | [t] => simp [isTermTok] at h
  | t :: d :: e :: rest => simp [isTermTok] at h
  | [t, d] =>
    simp only [isTermTok, Bool.and_eq_true, Bool.or_eq_true, beq_iff_eq] at h
    obtain ⟨ht, hd⟩ := h
    rcases ht with rfl | rfl <;> rcases hd with rfl | rfl <;> simp [jsToUpperS, jsToUpperL]

theorem applyTerm_term (st : ScanState) (part : List Char) :
    (applyTerm st part).parsed.term = st.parsed.term ∨
    (applyTerm st part).parsed.term = some "T1" ∨ (applyTerm st part).parsed.term = some "T2" := by
  unfold applyTerm
  split
  · rename_i h
    rcases isTermTok_upper h with h2 | h2 <;> simp [h2]
  · left; rfl

/-- One scanning step either keeps the `term` field or sets it to `T1`/`T2`,
and never touches `originalFilename`. -/
theorem scanPart_term (st : ScanState) (idx : Nat) (part : List Char) :
    (scanPart st idx part).parsed.term = st.parsed.term ∨
    (scanPart st idx part).parsed.term = some "T1" ∨
    (scanPart st idx part).parsed.term = some "T2" := by
  unfold scanPart
  rw [(applyClass_parsedFields _ _).1, (applyLesson_parsedFields _ _).1,
    (applyUnit_parsedFields _ _).1]
  rcases applyTerm_term (applyBranch (applyMathType (applyYearLevel
      (applyTeacherCode st idx part) idx part) idx part) idx part) part with h | h | h
  · rw [h, (applyBranch_parsedFields _ _ _).1, (applyMathType_parsedFields _ _ _).1,
      (applyYearLevel_parsedFields _ _ _).1, (applyTeacherCode_parsedFields _ _ _).1]
    left; rfl
  · rw [h]; right; left; rfl
  · rw [h]; right; right; rfl

theorem scanPart_originalFilename (st : ScanState) (idx : Nat) (part : List Char) :
    (scanPart st idx part).parsed.originalFilename = st.parsed.originalFilename := by
  unfold scanPart
  rw [(applyClass_parsedFields _ _).2, (applyLesson_parsedFields _ _).2,
    (applyUnit_parsedFields _ _).2, applyTerm_originalFilename,
    (applyBranch_parsedFields _ _ _).2, (applyMathType_parsedFields _ _ _).2,
    (applyYearLevel_parsedFields _ _ _).2, (applyTeacherCode_parsedFields _ _ _).2]

theorem scanParts_term (parts : List (List Char)) :
    ∀ (st : ScanState) (idx : Nat),
      (scanParts st idx parts).parsed.term = st.parsed.term ∨
      (scanParts st idx parts).parsed.term = some "T1" ∨
      (scanParts st idx parts).parsed.term = some "T2" := by
  induction parts with
  | nil => intro st idx; left; rfl
  | cons p rest ih =>
    intro st idx
    rcases ih (scanPart st idx p) (idx + 1) with h | h | h
    · rw [show scanParts st idx (p :: rest) = scanParts (scanPart st idx p) (idx + 1) rest from rfl, h]
      exact scanPart_term st idx p
    · right; left; exact h
    · right; right; exact h

theorem scanParts_originalFilename (parts : List (List Char)) :
    ∀ (st : ScanState) (idx : Nat),
      (scanParts st idx parts).parsed.originalFilename = st.parsed.originalFilename := by
  induction parts with
  | nil => intro st idx; rfl
  | cons p rest ih =>
    intro st idx
    rw [show scanParts st idx (p :: rest) = scanParts (scanPart st idx p) (idx + 1) rest from rfl,
      ih (scanPart st idx p) (idx + 1), scanPart_originalFilename]

/-! ## Structural lemmas about the later parsing passes -/

theorem applyBranchConflict_fields (p : ParsedFilename) (parts : List (List Char)) :
    (applyBranchConflict p parts).term = p.term ∧
    (applyBranchConflict p parts).originalFilename = p.originalFilename := by
  unfold applyBranchConflict
  split
  · exact ⟨rfl, rfl⟩
  · split <;> exact ⟨rfl, rfl⟩

theorem applyTypeDetection_fields (p : ParsedFilename) (cleanName : List Char) :
    (applyTypeDetection p cleanName).term = p.term ∧
    (applyTypeDetection p cleanName).originalFilename = p.originalFilename := by
  unfold applyTypeDetection
  split
  · exact ⟨rfl, rfl⟩
  · split <;> exact ⟨rfl, rfl⟩

theorem applyTeacherName_fields (p : ParsedFilename) (st : ScanState) (parts : List (List Char)) :
    (applyTeacherName p st parts).term = p.term ∧
    (applyTeacherName p st parts).originalFilename = p.originalFilename := by
  unfold applyTeacherName
  dsimp only
  split <;> exact ⟨rfl, rfl⟩

theorem applyYearFallback_fields (p : ParsedFilename) (parts : List (List Char)) :
    (applyYearFallback p parts).term = p.term ∧
    (applyYearFallback p parts).originalFilename = p.originalFilename := by
  unfold applyYearFallback
  dsimp only
  split
  · split
    · exact ⟨rfl, rfl⟩
    · split
      · split <;> exact ⟨rfl, rfl⟩
      · exact ⟨rfl, rfl⟩
  · exact ⟨rfl, rfl⟩

/-- Every record produced by the parser keeps the raw filename verbatim. -/
theorem parseFilename_originalFilename (f y : String) :
    (parseFilename f y).originalFilename = some f := by
  unfold parseFilename
  rw [(applyYearFallback_fields _ _).2, (applyTeacherName_fields _ _ _).2,
    (applyTypeDetection_fields _ _).2, (applyBranchConflict_fields _ _).2]
  unfold parseScan
  rw [scanParts_originalFilename]
  rfl

/-- The `term` field of a parser output is absent or exactly `"T1"`/`"T2"`. -/
theorem parseFilename_term (f y : String) :
    (parseFilename f y).term = none ∨ (parseFilename f y).term = some "T1" ∨
    (parseFilename f y).term = some "T2" := by
  unfold parseFilename
  rw [(applyYearFallback_fields _ _).1, (applyTeacherName_fields _ _ _).1,
    (applyTypeDetection_fields _ _).1, (applyBranchConflict_fields _ _).1]
  unfold parseScan
  rcases scanParts_term (parseParts f) (initialScanState f) 0 with h | h | h
  · rw [h]; left; rfl
  · right; left; exact h
  · right; right; exact h

/-! ## Lemmas about term resolution and collection names -/

theorem findWordT12_mem {s : List Char} {t : String} (h : findWordT12 s = some t) :
    t = "T1" ∨ t = "T2" := by
  unfold findWordT12 at h
  revert h
  generalize (none : Option Char) = prev
  intro h
  induction s generalizing prev with
  | nil => simp [findWordT12Aux] at h
  | cons c rest ih =>
    simp only [findWordT12Aux] at h
    split at h
    · split at h
      · split at h
        · rw [Option.some_inj] at h
          split at h
          · left; exact h.symm
          · right; exact h.symm
        · exact ih _ h
      · exact ih _ h
    · exact ih _ h

theorem determineFileTermFromName_mem (p : ParsedFilename) :
    determineFileTermFromName p = "T1" ∨ determineFileTermFromName p = "T2" := by
  rcases hfw : findWordT12 ((p.originalFilename.getD "").data) with _ | t
  · unfold determineFileTermFromName
    dsimp only
    rw [hfw]
    dsimp only
    split
    · left; rfl
    · split
      · right; rfl
      · split
        · split
          · left; rfl
          · split
            · right; rfl
            · left; rfl
        · left; rfl
  · have hv : determineFileTermFromName p = t := by
      unfold determineFileTermFromName
      dsimp only
      rw [hfw]
    rw [hv]
    exact findWordT12_mem hfw

theorem determineFileTerm_mem (p : ParsedFilename)
    (hp : p.term = none ∨ p.term = some "T1" ∨ p.term = some "T2") :
    determineFileTerm p = "T1" ∨ determineFileTerm p = "T2" := by
  unfold determineFileTerm
  rcases hp with h | h | h <;> rw [h]
  · exact determineFileTermFromName_mem p
  · left; rfl
  · right; rfl

theorem determineCollection_name_cases (p : ParsedFilename) (year : String)
    (hErr : p.academicYear ≠ "Error")
    (hterm : determineFileTerm p = "T1" ∨ determineFileTerm p = "T2") :
    (determineCollection p year).name = "RE-" ++ year ∨
    (determineCollection p year).name = "RE-T1-" ++ year ++ "-QV" ∨
    (determineCollection p year).name = "RE-T2-" ++ year ++ "-QV" ∨
    (determineCollection p year).name = "T1-" ++ year ∨
    (determineCollection p year).name = "T2-" ++ year ∨
    (determineCollection p year).name = "T1-" ++ year ++ "-QV" ∨
    (determineCollection p year).name = "T2-" ++ year ++ "-QV" := by
  unfold determineCollection
  rw [if_neg hErr]
  dsimp only
  split
  · split
    · rcases hterm with h | h <;> rw [h]
      · right; left
        show ("RE-" ++ "T1" ++ "-") ++ year ++ "-QV" = "RE-T1-" ++ year ++ "-QV"
        rw [show ("RE-" ++ "T1" ++ "-" : String) = "RE-T1-" from rfl]
      · right; right; left
        show ("RE-" ++ "T2" ++ "-") ++ year ++ "-QV" = "RE-T2-" ++ year ++ "-QV"
        rw [show ("RE-" ++ "T2" ++ "-" : String) = "RE-T2-" from rfl]
    · left; rfl
  · split
    · rcases hterm with h | h <;> rw [h]
      · right; right; right; right; right; left; rfl
      · right; right; right; right; right; right; rfl
    · rcases hterm with h | h <;> rw [h]
      · right; right; right; left; rfl
      · right; right; right; right; left; rfl

/-! ## Lemmas about the stable score sort -/

theorem mem_insertMatchDesc {x y : LibraryInfo × Int} {l : List (LibraryInfo × Int)} :
    y ∈ insertMatchDesc x l ↔ y = x ∨ y ∈ l := by
  induction l with
  | nil => simp [insertMatchDesc]
  | cons z zs ih =>
    unfold insertMatchDesc
    split
    · simp [List.mem_cons]
    · simp only [List.mem_cons, ih]
      tauto

theorem mem_sortMatchesDesc_aux (l acc : List (LibraryInfo × Int)) (y : LibraryInfo × Int) :
    y ∈ l.foldl (fun a x => insertMatchDesc x a) acc ↔ y ∈ acc ∨ y ∈ l := by
  induction l generalizing acc with
  | nil => simp
  | cons z zs ih =>
    simp only [List.foldl_cons, ih, mem_insertMatchDesc, List.mem_cons]
    tauto

theorem mem_sortMatchesDesc {l : List (LibraryInfo × Int)} {y : LibraryInfo × Int} :
    y ∈ sortMatchesDesc l ↔ y ∈ l := by
  unfold sortMatchesDesc
  rw [mem_sortMatchesDesc_aux]
  simp

/-- Every pair reachable from the sorted match list carries the clamped score
of its own library and passed the rejection threshold. -/
theorem mem_scoredMatches {p : ParsedFilename} {libs : List LibraryInfo}
    {m : LibraryInfo × Int} (h : m ∈ scoredMatches p libs) :
    m.1 ∈ libs ∧ m.2 = scoreLibrary p m.1 ∧ m.2 > -20 := by
  unfold scoredMatches at h
  rw [List.mem_filter] at h
  obtain ⟨h1, h2⟩ := h
  rw [List.mem_map] at h1
  obtain ⟨lib, hlib, rfl⟩ := h1
  exact ⟨hlib, rfl, by simpa using h2⟩

/-- Claim C1 (amended): for every parsed record and candidate list,
`findMatchingLibrary` clamps each candidate's score to the range `[-30, 200]`,
and candidates scoring at or below the hard rejection threshold `-20` are
excluded entirely from the result: the winning library and every entry of the
`alternatives` list score strictly above `-20`.  (The original claim said
scores strictly between `-30` and `-20` still appear in `alternatives`; the
counterexample refutes that part.) -/
theorem findMatchingLibrary_clamp_threshold (p : ParsedFilename) (libs : List LibraryInfo) :
    (∀ lib, lib ∈ libs → -30 ≤ scoreLibrary p lib ∧ scoreLibrary p lib ≤ 200) ∧
    (∀ lib, (findMatchingLibrary p libs).library = some lib → -20 < scoreLibrary p lib) ∧
    (∀ lib, lib ∈ (findMatchingLibrary p libs).alternatives → -20 < scoreLibrary p lib) := by
  refine ⟨fun lib _ => ⟨le_max_right _ _, max_le (min_le_right _ _) (by norm_num)⟩, ?_, ?_⟩
  · intro lib h
    unfold findMatchingLibrary at h
    dsimp only at h
    rcases hs : sortMatchesDesc (scoredMatches p libs) with _ | ⟨m, rest⟩
    · rw [hs] at h; simp at h
    · rw [hs] at h
      simp only [List.head?_cons, Option.map_some'] at h
      have hm : m ∈ sortMatchesDesc (scoredMatches p libs) := by
        rw [hs]; exact List.mem_cons_self _ _
      have h2 := mem_scoredMatches (mem_sortMatchesDesc.mp hm)
      rw [Option.some_inj] at h
      rw [← h, ← h2.2.1]
      exact h2.2.2
  · intro lib h
    unfold findMatchingLibrary at h
    dsimp only at h
    rw [List.mem_map] at h
    obtain ⟨m, hm5, rfl⟩ := h
    have hm : m ∈ sortMatchesDesc (scoredMatches p libs) := List.take_subset _ _ hm5
    have h2 := mem_scoredMatches (mem_sortMatchesDesc.mp hm)
    rw [← h2.2.1]
    exact h2.2.2

theorem academicYearBonus_bounds (p : ParsedFilename) (n : String) :
    0 ≤ academicYearBonus p n ∧ academicYearBonus p n ≤ 30 := by
  unfold academicYearBonus
  split <;> omega

theorem mathTypeBonus_bounds (p : ParsedFilename) (n : String) :
    -50 ≤ mathTypeBonus p n ∧ mathTypeBonus p n ≤ 80 := by
  unfold mathTypeBonus
  dsimp only
  split_ifs <;> omega

theorem branchMatchBonus_bounds (p : ParsedFilename) (n : String) :
    0 ≤ branchMatchBonus p n ∧ branchMatchBonus p n ≤ 25 := by
  unfold branchMatchBonus
  split
  · dsimp only
    split_ifs <;> omega
  · omega

theorem teacherNameBonus_bounds (p : ParsedFilename) (n : String) :
    0 ≤ teacherNameBonus p n ∧ teacherNameBonus p n ≤ 15 := by
  unfold teacherNameBonus
  split
  · dsimp only
    split_ifs <;> omega
  · omega

theorem teacherCodeBonus_of_includes {p : ParsedFilename} {tc n : String}
    (htc : p.teacherCode = some tc) (hne : tc ≠ "") (hinc : jsIncludes n tc = true) :
    teacherCodeBonus p n = 40 := by
  unfold teacherCodeBonus
  rw [htc]
  dsimp only
  rw [if_pos ⟨hne, hinc⟩]

theorem teacherCodeBonus_of_not_includes {p : ParsedFilename} {tc n : String}
    (htc : p.teacherCode = some tc) (hinc : jsIncludes n tc = false) :
    teacherCodeBonus p n = 0 := by
  unfold teacherCodeBonus
  rw [htc]
  dsimp only
  simp [hinc]

/-- Claim C6 (amended): for a fixed parsed record with a teacher code, a
library name containing the code scores exactly 40 points more than a name
without it, provided the two names produce the same outcome on every other
scoring rule and the floor clamp does not bite on the code-free score.  (The
original unconditional claim fails: see the counterexample, where clamping
shrinks the gap to 20.) -/
theorem teacherCode_bonus_amended (p : ParsedFilename) (tc : String) (n n2 : LibraryInfo)
    (htc : p.teacherCode = some tc) (hne : tc ≠ "")
    (h1 : jsIncludes n.name tc = false) (h2 : jsIncludes n2.name tc = true)
    (hy : academicYearBonus p n2.name = academicYearBonus p n.name)
    (hm : mathTypeBonus p n2.name = mathTypeBonus p n.name)
    (hb : branchMatchBonus p n2.name = branchMatchBonus p n.name)
    (hn : teacherNameBonus p n2.name = teacherNameBonus p n.name)
    (hfloor : -30 ≤ rawScore p n.name) :
    scoreLibrary p n2 = scoreLibrary p n + 40 := by
  have e1 : teacherCodeBonus p n.name = 0 := teacherCodeBonus_of_not_includes htc h1
  have e2 : teacherCodeBonus p n2.name = 40 := teacherCodeBonus_of_includes htc hne h2
  have hraw : rawScore p n2.name = rawScore p n.name + 40 := by
    unfold rawScore
    rw [e1, e2, hy, hm, hb, hn]
    ring
  have hub : rawScore p n.name ≤ 150 := by
    have ha := academicYearBonus_bounds p n.name
    have hmm := mathTypeBonus_bounds p n.name
    have hbb := branchMatchBonus_bounds p n.name
    have hnn := teacherNameBonus_bounds p n.name
    unfold rawScore
    rw [e1]
    omega
  unfold scoreLibrary
  rw [hraw]
  rw [min_eq_left (by omega : rawScore p n.name ≤ 200),
    min_eq_left (by omega : rawScore p n.name + 40 ≤ 200),
    max_eq_left hfloor, max_eq_left (by omega : (-30 : Int) ≤ rawScore p n.name + 40)]

theorem mapGet_mapSet_self {V : Type} (m : List (String × V)) (k : String) (v : V) :
    mapGet (mapSet m k v) k = some v := by
  simp [mapGet, mapSet, List.find?]

theorem learnFromManualSelection_userSelectionCache (st : MatcherState) (f a b : String) :
    (learnFromManualSelection st f a b).userSelectionCache =
      mapSet st.userSelectionCache f ⟨a, b⟩ := by
  unfold learnFromManualSelection
  dsimp only
  split <;> split <;> rfl

/-- Claim C4: once `learnFromManualSelection` has recorded a library for an
exact filename, a subsequent `tryMatchLibrary` call for that filename (with
any nonempty candidate list, any prior cache state and any item metadata)
applies the recorded library at maximal confidence 100, bypassing the scorer
and the pattern cache entirely. -/
theorem tryMatchLibrary_userSelection_shortCircuit
    (st : MatcherState) (f libId libName : String) (md : ItemMetadata)
    (libs : List LibraryInfo) (h : libs ≠ []) :
    (tryMatchLibrary (learnFromManualSelection st f libId libName) ⟨f, md⟩ libs).1.metadata.library = libId ∧
    (tryMatchLibrary (learnFromManualSelection st f libId libName) ⟨f, md⟩ libs).1.metadata.libraryName = libName ∧
    (tryMatchLibrary (learnFromManualSelection st f libId libName) ⟨f, md⟩ libs).1.metadata.confidence = 100 ∧
    (tryMatchLibrary (learnFromManualSelection st f libId libName) ⟨f, md⟩ libs).1.metadata.needsManualSelection = false := by
  have hget : mapGet (learnFromManualSelection st f libId libName).userSelectionCache f =
      some ⟨libId, libName⟩ := by
    rw [learnFromManualSelection_userSelectionCache]
    exact mapGet_mapSet_self _ _ _
  unfold tryMatchLibrary tryMatchLibraryTry
  rw [if_neg h]
  dsimp only
  rw [hget]
  dsimp only
  unfold applyMatchAndCache
  dsimp only
  exact ⟨rfl, rfl, rfl, rfl⟩

/-- Claim C3 (amended): with an empty candidate list, `tryMatchLibrary` throws
the "No libraries available" error internally, but its own catch handler
swallows it: the flow returns normally with the item degraded to manual
selection (needsManualSelection true, confidence 0, library cleared) and the
cache state untouched, so no error ever reaches the orchestration layer.
(The original claim said the error is raised to the orchestration layer
instead of degrading to manual selection.) -/
theorem tryMatchLibrary_empty_degrades (st : MatcherState) (item : QueueItem) :
    tryMatchLibraryTry st item [] = Except.error "No libraries available to match against." ∧
    (tryMatchLibrary st item []).1.metadata.needsManualSelection = true ∧
    (tryMatchLibrary st item []).1.metadata.confidence = 0 ∧
    (tryMatchLibrary st item []).1.metadata.library = "" ∧
    (tryMatchLibrary st item []).2 = st :=
  ⟨rfl, rfl, rfl, rfl, rfl⟩

/-- Counterexample for claim C3 as stated: on a concrete item and the empty
candidate list the flow does degrade to manual selection (the inner throw is
caught), rather than raising an error to the caller. -/
theorem tryMatchLibrary_empty_cex :
    (tryMatchLibrary {} ⟨"file1.mp4", {}⟩ []).1.metadata.needsManualSelection = true ∧
    (tryMatchLibrary {} ⟨"file1.mp4", {}⟩ []).1.metadata.confidence = 0 ∧
    tryMatchLibraryTry {} ⟨"file1.mp4", {}⟩ [] =
      Except.error "No libraries available to match against." :=
  ⟨rfl, rfl, rfl⟩

/-- Claim C5: every filename containing a letter Q (or q) immediately followed
by a digit, anywhere, yields a parsed record classified as QUESTION: the
content-type predicate `isQuestionFile` holds on the parser output (it is what
`determineCollection` consults to route the file to a `-QV` collection). -/
theorem parseFilename_qdigit_question (f y : String) (h : containsQDigitL f.data = true) :
    isQuestionFile (parseFilename f y) = true := by
  have ho := parseFilename_originalFilename f y
  unfold isQuestionFile
  rw [ho]
  simp [h]

theorem parseFilename_qdigit_question_witness :
    containsQDigitL "M2-Q1.mp4".data = true ∧
    isQuestionFile (parseFilename "M2-Q1.mp4" "2026") = true :=
  ⟨by decide, parseFilename_qdigit_question "M2-Q1.mp4" "2026" (by decide)⟩

/-- Claim C7: whenever the parsing body raises an exception, `parseFilename`
returns the minimal record with `type = "FULL"` (STANDARD), `academicYear =
"Error"` and no other field populated — and, being a total function, never
propagates the exception to its caller. -/
theorem parseFilenameJS_error_recovery (a : JsStringArg) (y e : String)
    (h : parseFilenameDyn a y = Except.error e) :
    parseFilenameJS a y = errorParsedFilename := by
  unfold parseFilenameJS
  rw [h]

theorem parseFilenameJS_error_recovery_witness :
    parseFilenameDyn JsStringArg.nonString "2026" =
      Except.error "TypeError: filename.split is not a function" ∧
    parseFilenameJS JsStringArg.nonString "2026" = errorParsedFilename :=
  ⟨rfl, parseFilenameJS_error_recovery JsStringArg.nonString "2026" _ rfl⟩

/-- Claim C8: `parseFilename` is deterministic and side-effect-free — it is a
pure function of the filename and the year, so two calls with identical
arguments yield identical `ParsedFilename` records.  (The embedding of the
full parsing pipeline required no mutable state at all, which is the formal
content of "side-effect-free"; the year-keyed configuration table read by the
source is dead code inside `parseFilename`.) -/
theorem parseFilename_deterministic (f1 f2 y1 y2 : String) (hf : f1 = f2) (hy : y1 = y2) :
    parseFilename f1 y1 = parseFilename f2 y2 := by
  rw [hf, hy]

theorem parseFilename_deterministic_witness :
    parseFilename "M1-AR.mp4" "2026" = parseFilename "M1-AR.mp4" "2026" :=
  parseFilename_deterministic "M1-AR.mp4" "M1-AR.mp4" "2026" "2026" rfl rfl

/-- Claim C9: for every parsed record, `findMatchingLibrary` on the empty
candidate list raises no error and returns a null library, confidence 0 and
an empty alternatives list. -/
theorem findMatchingLibrary_empty (p : ParsedFilename) :
    findMatchingLibrary p [] = { library := none, confidence := 0, alternatives := [] } :=
  rfl

/-- Claim C10: for every parser output whose `academicYear` is not `"Error"`,
the term used by `determineCollection` is exactly `"T1"` or `"T2"` (recovered
from the filename when no term was parsed, defaulting to `"T1"`), so the
returned collection name is one of the seven shapes `RE-<year>`,
`RE-T1-<year>-QV`, `RE-T2-<year>-QV`, `T1-<year>`, `T2-<year>`,
`T1-<year>-QV`, `T2-<year>-QV`. -/
theorem determineCollection_term_shape (f y y2 : String)
    (h : (parseFilename f y).academicYear ≠ "Error") :
    (determineFileTerm (parseFilename f y) = "T1" ∨ determineFileTerm (parseFilename f y) = "T2") ∧
    ((determineCollection (parseFilename f y) y2).name = "RE-" ++ y2 ∨
     (determineCollection (parseFilename f y) y2).name = "RE-T1-" ++ y2 ++ "-QV" ∨
     (determineCollection (parseFilename f y) y2).name = "RE-T2-" ++ y2 ++ "-QV" ∨
     (determineCollection (parseFilename f y) y2).name = "T1-" ++ y2 ∨
     (determineCollection (parseFilename f y) y2).name = "T2-" ++ y2 ∨
     (determineCollection (parseFilename f y) y2).name = "T1-" ++ y2 ++ "-QV" ∨
     (determineCollection (parseFilename f y) y2).name = "T2-" ++ y2 ++ "-QV") := by
  have ht := determineFileTerm_mem _ (parseFilename_term f y)
  exact ⟨ht, determineCollection_name_cases _ y2 h ht⟩

theorem determineCollection_term_shape_witness :
    (parseFilename "T2-abc.mp4" "2026").academicYear ≠ "Error" ∧
    ((determineCollection (parseFilename "T2-abc.mp4" "2026") "2026").name = "RE-" ++ "2026" ∨
     (determineCollection (parseFilename "T2-abc.mp4" "2026") "2026").name = "RE-T1-" ++ "2026" ++ "-QV" ∨
     (determineCollection (parseFilename "T2-abc.mp4" "2026") "2026").name = "RE-T2-" ++ "2026" ++ "-QV" ∨
     (determineCollection (parseFilename "T2-abc.mp4" "2026") "2026").name = "T1-" ++ "2026" ∨
     (determineCollection (parseFilename "T2-abc.mp4" "2026") "2026").name = "T2-" ++ "2026" ∨
     (determineCollection (parseFilename "T2-abc.mp4" "2026") "2026").name = "T1-" ++ "2026" ++ "-QV" ∨
     (determineCollection (parseFilename "T2-abc.mp4" "2026") "2026").name = "T2-" ++ "2026" ++ "-QV") :=
  ⟨by decide, (determineCollection_term_shape "T2-abc.mp4" "2026" "2026" (by decide)).2⟩

/-- Claim C2 (code bug): the spec and the source's own comment require that
`"math quiz for practice.mp4"` is NOT classified as QUESTION (phrase
exclusion), but `parseFilename` sets `type = "QV"` on any word-bounded `quiz`
with no phrase exclusion, and `isQuestionFile` returns true from its
`type == 'QV'` check before ever reaching its "avoid phrases like math quiz
for practice" guard — whose pattern does match this filename — so the file is
routed to a `-QV` collection.  This theorem evaluates the code at the failing
input. -/
theorem mathQuizForPractice_classified_question :
    (parseFilename "math quiz for practice.mp4" "2026").type = "QV" ∧
    isQuestionFile (parseFilename "math quiz for practice.mp4" "2026") = true ∧
    phraseWordQuiz "math quiz for practice.mp4".data = true ∧
    (determineCollection (parseFilename "math quiz for practice.mp4" "2026") "2026").name =
      "T1-2026-QV" := by
  refine ⟨by decide, by decide, by decide, by decide⟩

/-- Counterexample for claim C1 as stated: a candidate whose clamped score is
`-25` — strictly between `-30` and `-20` — is dropped by the `score > -20`
filter and therefore does NOT appear in the `alternatives` list (nor anywhere
else in the result). -/
theorem findMatchingLibrary_midrange_excluded_cex :
    scoreLibrary { mathType := some "PURE", branch := some "AR" } ⟨"L1", "APPLIED-AR-X"⟩ = -25 ∧
    ((-30 : Int) < -25 ∧ (-25 : Int) < -20) ∧
    (findMatchingLibrary { mathType := some "PURE", branch := some "AR" }
      [⟨"L1", "APPLIED-AR-X"⟩]).alternatives = [] ∧
    (findMatchingLibrary { mathType := some "PURE", branch := some "AR" }
      [⟨"L1", "APPLIED-AR-X"⟩]).library = none := by
  refine ⟨by decide, ⟨by decide, by decide⟩, by decide, by decide⟩

theorem findMatchingLibrary_clamp_threshold_witness :
    ((-30 : Int) ≤ scoreLibrary {} ⟨"1", "X"⟩ ∧ scoreLibrary {} ⟨"1", "X"⟩ ≤ 200) ∧
    (-20 : Int) < scoreLibrary {} ⟨"1", "X"⟩ :=
  ⟨(findMatchingLibrary_clamp_threshold {} [⟨"1", "X"⟩]).1 ⟨"1", "X"⟩ (by decide),
   (findMatchingLibrary_clamp_threshold {} [⟨"1", "X"⟩]).2.1 ⟨"1", "X"⟩ (by decide)⟩

/-- Counterexample for claim C6 as stated: for a PURE-track parsed record with
teacher code `P0078`, the name `"APPLIED"` scores `-30` (floor-clamped from
`-50`) while the extended name `"APPLIED-P0078"` scores `-10` — strictly
higher, but by 20 points, not by the claimed exact 40. -/
theorem teacherCode_bonus_cex :
    jsIncludes "APPLIED-P0078" "P0078" = true ∧
    jsIncludes "APPLIED" "P0078" = false ∧
    scoreLibrary { teacherCode := some "P0078", mathType := some "PURE" } ⟨"1", "APPLIED-P0078"⟩ = -10 ∧
    scoreLibrary { teacherCode := some "P0078", mathType := some "PURE" } ⟨"1", "APPLIED"⟩ = -30 ∧
    ¬(scoreLibrary { teacherCode := some "P0078", mathType := some "PURE" } ⟨"1", "APPLIED-P0078"⟩ =
      scoreLibrary { teacherCode := some "P0078", mathType := some "PURE" } ⟨"1", "APPLIED"⟩ + 40) := by
  refine ⟨by decide, by decide, by decide, by decide, by decide⟩

theorem teacherCode_bonus_amended_witness :
    scoreLibrary { teacherCode := some "P0078" } ⟨"2", "XX-P0078"⟩ =
      scoreLibrary { teacherCode := some "P0078" } ⟨"1", "XX"⟩ + 40 :=
  teacherCode_bonus_amended { teacherCode := some "P0078" } "P0078" ⟨"1", "XX"⟩ ⟨"2", "XX-P0078"⟩
    rfl (by decide) (by decide) (by decide) (by decide) (by decide) (by decide) (by decide)
    (by decide)

theorem tryMatchLibrary_userSelection_shortCircuit_witness :
    ([(⟨"9", "SomeLib"⟩ : LibraryInfo)] ≠ []) ∧
    (tryMatchLibrary (learnFromManualSelection {} "M1-AR-P0001-Ali.mp4" "42" "M1-AR-Ali Library")
      ⟨"M1-AR-P0001-Ali.mp4", {}⟩ [⟨"9", "SomeLib"⟩]).1.metadata.library = "42" ∧
    (tryMatchLibrary (learnFromManualSelection {} "M1-AR-P0001-Ali.mp4" "42" "M1-AR-Ali Library")
      ⟨"M1-AR-P0001-Ali.mp4", {}⟩ [⟨"9", "SomeLib"⟩]).1.metadata.confidence = 100 :=
  ⟨by decide,
   (tryMatchLibrary_userSelection_shortCircuit {} "M1-AR-P0001-Ali.mp4" "42" "M1-AR-Ali Library"
      {} [⟨"9", "SomeLib"⟩] (by decide)).1,
   (tryMatchLibrary_userSelection_shortCircuit {} "M1-AR-P0001-Ali.mp4" "42" "M1-AR-Ali Library"
      {} [⟨"9", "SomeLib"⟩] (by decide)).2.2.1⟩
